import Mathlib

/-!
# Verification of the ChatterBot ingestion pipeline

Shallow embedding of `src/full_chatpot_fixed.py` and `src/cleaner.py`.
Pure functions of the source become Lean functions; the stateful parts
(the Train-Recency map and the Training Gate submissions) become explicit
state passing; the stop event and wall-clock time become explicit
parameters.  Python library routines that the source calls
(`urllib.parse.urldefrag`, `urlparse`, `str.split`, `str.splitlines`,
`re.sub`) are modelled character-by-character on `List Char`, restricted to
the fragment of their behaviour the source exercises (ASCII whitespace and
lowering, the common line terminators, scheme/netloc extraction).
-/

namespace Chatpot

/-! ## Python string helpers -/

/-- ASCII lowering of a single character, as `str.lower` acts on the ASCII
range.  (Python's `str.lower` is Unicode-aware; the source only compares
against ASCII extension/scheme literals, so the ASCII table is the
exercised fragment.) -/
def pyLower (c : Char) : Char :=
  match c with
  | 'A' => 'a' | 'B' => 'b' | 'C' => 'c' | 'D' => 'd' | 'E' => 'e'
  | 'F' => 'f' | 'G' => 'g' | 'H' => 'h' | 'I' => 'i' | 'J' => 'j'
  | 'K' => 'k' | 'L' => 'l' | 'M' => 'm' | 'N' => 'n' | 'O' => 'o'
  | 'P' => 'p' | 'Q' => 'q' | 'R' => 'r' | 'S' => 's' | 'T' => 't'
  | 'U' => 'u' | 'V' => 'v' | 'W' => 'w' | 'X' => 'x' | 'Y' => 'y'
  | 'Z' => 'z' | c => c

/-- `str.lower` on a whole string (ASCII fragment). -/
def lowerString (s : String) : String :=
  String.mk (s.data.map pyLower)

/-- Python's `\s` on the ASCII range: space, tab, LF, CR, VT, FF (also the
characters `str.strip()` removes from ASCII text). -/
def isPySpace (c : Char) : Bool :=
  c = ' ' || c = '\t' || c = '\x0a' || c = '\r' || c = '\x0b' || c = '\x0c'

/-- `str.strip()` (ASCII whitespace fragment). -/
def pyStrip (cs : List Char) : List Char :=
  ((cs.dropWhile isPySpace).reverse.dropWhile isPySpace).reverse

def pyStripStr (s : String) : String :=
  String.mk (pyStrip s.data)

/-- `str.split(sep)` for a nonempty separator: cut at each leftmost
non-overlapping occurrence.  The accumulator holds the current piece
reversed; a piece closes as soon as its reversed form starts with the
reversed separator. -/
def pySplitAux (sepRev : List Char) : List Char → List Char → List (List Char)
  | [], acc => [acc.reverse]
  | c :: cs, acc =>
    let acc' := c :: acc
    if sepRev.isPrefixOf acc' then
      (acc'.drop sepRev.length).reverse :: pySplitAux sepRev cs []
    else pySplitAux sepRev cs acc'

def pySplit (sep cs : List Char) : List (List Char) :=
  pySplitAux sep.reverse cs []

/-- `s.split(sep)` on strings. -/
def pySplitStr (s sep : String) : List String :=
  (pySplit sep.data s.data).map String.mk

/-! ## `urllib.parse` model

`urlsplit` (Python 3.11): removes the unsafe bytes tab/CR/LF, splits off a
scheme when the text before the first `:` is a nonempty run of scheme
characters starting with an ASCII letter (the scheme is lowercased), takes
the netloc after a leading `//` up to the next `/`, `?` or `#`, raises
`ValueError` on a netloc containing `[` without `]` or vice versa, then
splits off fragment (first `#`) and query (first `?`).  `urlunsplit`
reassembles the parts.  The bracketed-host validation of newer CPython and
the non-ASCII NFKC netloc check are outside the modelled fragment (no
claim, witness or counterexample here uses a bracketed or non-ASCII host).
-/

/-- Characters `urlsplit` deletes from the URL before parsing. -/
def sanitizeUrl (cs : List Char) : List Char :=
  cs.filter (fun c => !(c = '\t' || c = '\r' || c = '\x0a'))

/-- Python `scheme_chars`: ASCII letters, digits, `+`, `-`, `.`. -/
def isSchemeChar (c : Char) : Bool :=
  c.isAlpha || c.isDigit || c = '+' || c = '-' || c = '.'

/-- Split a scheme off the front: returns `(scheme, rest)`; scheme `[]`
when no valid scheme is present (then `rest` is the whole input). -/
def splitScheme (cs : List Char) : List Char × List Char :=
  match cs.span (fun c => c ≠ ':') with
  | (pre, rest) =>
    match rest with
    | ':' :: post =>
      match pre with
      | [] => ([], cs)
      | c₀ :: _ =>
        if c₀.isAlpha && pre.all isSchemeChar then (pre.map pyLower, post)
        else ([], cs)
    | _ => ([], cs)

/-- A character ending the netloc. -/
def isNetlocEnd (c : Char) : Bool :=
  c = '/' || c = '?' || c = '#'

/-- Split a netloc off the front of the post-scheme text: nonempty only
after a leading `//`; the netloc runs to the next `/`, `?` or `#`. -/
def splitNetloc (cs : List Char) : List Char × List Char :=
  match cs with
  | '/' :: '/' :: rest =>
    (rest.takeWhile (fun c => !isNetlocEnd c),
     rest.drop (rest.takeWhile (fun c => !isNetlocEnd c)).length)
  | _ => ([], cs)

/-- The `Invalid IPv6 URL` check: a `[` without `]` (or vice versa) in the
netloc makes `urlsplit` raise `ValueError`. -/
def invalidIPv6 (netloc : List Char) : Bool :=
  (decide ('[' ∈ netloc) && !decide (']' ∈ netloc)) ||
  (decide (']' ∈ netloc) && !decide ('[' ∈ netloc))

/-- The text after scheme and netloc, truncated at the first `#` (the
fragment split of `urlsplit`). -/
def pyBeforeFrag (url : String) : List Char :=
  ((splitNetloc (splitScheme (sanitizeUrl url.data)).2).2).takeWhile (fun c => c ≠ '#')

/-- `urlsplit url` restricted to what `urldefrag`/`urlparse` need here:
`none` models a raised `ValueError`; otherwise `(scheme, netloc, path,
query)`, fragment discarded. -/
def pyUrlsplit (url : String) : Option (List Char × List Char × List Char × List Char) :=
  if invalidIPv6 (splitNetloc (splitScheme (sanitizeUrl url.data)).2).1 then none
  else
    some ((splitScheme (sanitizeUrl url.data)).1,
          (splitNetloc (splitScheme (sanitizeUrl url.data)).2).1,
          (pyBeforeFrag url).takeWhile (fun c => c ≠ '?'),
          ((pyBeforeFrag url).dropWhile (fun c => c ≠ '?')).drop 1)

/-- `urlunsplit`, netloc step: re-attach `//netloc` when a netloc is
present or the path starts with `//`, inserting a `/` before a relative
path. -/
def pyAddNetloc (nl path : List Char) : List Char :=
  if nl ≠ [] ∨ path.take 2 = ['/', '/'] then
    '/' :: '/' :: (nl ++ (if path ≠ [] ∧ path.take 1 ≠ ['/'] then '/' :: path else path))
  else path

/-- `urlunsplit`, scheme step: re-attach `scheme:` when nonempty. -/
def pyAddScheme (sch u : List Char) : List Char :=
  if sch ≠ [] then sch ++ ':' :: u else u

/-- `urlunsplit`, query step: re-attach `?query` when nonempty. -/
def pyAddQuery (query u : List Char) : List Char :=
  if query ≠ [] then u ++ '?' :: query else u

/-- `urlunsplit` with an empty fragment: rebuilds
`scheme : // netloc / path ? query`, each part only when present
(an empty query or fragment is not re-attached). -/
def pyUrlunsplit (sch nl path query : List Char) : List Char :=
  pyAddQuery query (pyAddScheme sch (pyAddNetloc nl path))

/-- Scheme and netloc of `urlparse(url)`; `none` models a raised
`ValueError`. -/
def urlparse_scheme_netloc (url : String) : Option (String × String) :=
  match pyUrlsplit url with
  | none => none
  | some (sch, nl, _, _) => some (String.mk sch, String.mk nl)

/-- `urlparse(u).netloc` with the raising case defaulted to `""`; only
used at call sites the source guards by `is_valid_url` (where `urlparse`
cannot raise). -/
def urlparse_netloc (url : String) : String :=
  match urlparse_scheme_netloc url with
  | none => ""
  | some (_, nl) => nl

/-! ## Source: `is_valid_url`, `normalize_url` (lines 58-71) -/

/-- `is_valid_url`: scheme is `http`/`https` and the netloc is nonempty;
an exception from `urlparse` is caught and yields `False`. -/
def is_valid_url (url : String) : Bool :=
  match urlparse_scheme_netloc url with
  | none => false
  | some (sch, nl) => (sch = "http" || sch = "https") && nl ≠ ""

/-- `normalize_url`: `urldefrag(url)[0]`, with the exception fallback
`url.split("#")[0]`.  `urldefrag` returns the input unchanged when it has
no `#`, and otherwise reassembles the split parts without the fragment. -/
def normalize_url (url : String) : String :=
  if '#' ∈ url.data then
    match pyUrlsplit url with
    | some (sch, nl, path, query) => String.mk (pyUrlunsplit sch nl path query)
    | none => String.mk (url.data.takeWhile (fun c => c ≠ '#'))
  else url

/-! ## Source: configuration constants (lines 26-30) -/

def CRAWL_INTERVAL : Nat := 3600

def MAX_LINKS_PER_BASE : Nat := 5

def TRAIN_TTL_SECONDS : Int := 6 * 3600

def MAX_TRAIN_LINES_PER_URL : Nat := 200

/-! ## Source: Train-Recency map (lines 74-83)

`last_trained_at` is a Python dict from URL to timestamp; modelled as an
association list where assignment prepends and lookup takes the first
match (observationally the dict).  Timestamps are `Int` (the code uses
`time.time()` floats only through subtraction and comparison against the
integer TTL, so integer instants express every ordering the code
distinguishes at whole-second granularity). -/

/-- `last_trained_at.get(url)`. -/
def lookupLast (m : List (String × Int)) (url : String) : Option Int :=
  match m.find? (fun p => p.1 = url) with
  | some p => some p.2
  | none => none

/-- `should_train_url`: `True` when never trained, else
`(now - last) >= TRAIN_TTL_SECONDS`. -/
def should_train_url (m : List (String × Int)) (now : Int) (url : String) : Bool :=
  match lookupLast m url with
  | none => true
  | some last => TRAIN_TTL_SECONDS ≤ now - last

/-- `mark_trained`: `last_trained_at[url] = time.time()`. -/
def mark_trained (m : List (String × Int)) (now : Int) (url : String) :
    List (String × Int) :=
  (url, now) :: m

/-! ## Source: `resolve_language_from_url` (lines 121-128) -/

/-- `resolve_language_from_url`: the guard is a substring test on the
whole URL (`"wikipedia.org" in url`); the language code is
`url.split("//")[1].split(".")[0]` (an `IndexError` when there is no `//`
is caught and yields `"en"`), with an empty code replaced by `"en"`
(`lang_code or "en"`). -/
def resolve_language_from_url (url : String) : String :=
  if "wikipedia.org".data <:+: url.data then
    match pySplitStr url "//" with
    | _ :: seg :: _ =>
      let lang_code := (pySplitStr seg ".").headD ""
      if lang_code = "" then "en" else lang_code
    | _ => "en"
  else "en"

/-! ## Source: web line filtering inside `train_from_url` (lines 159-168) -/

/-- Line 159: `[line.strip() for line in text.split("\n") if
len(line.strip()) > 20]` (the comprehension strips each line and keeps it
when the stripped form is longer than 20 characters; mapping the strip
first and filtering after is the same list). -/
def webKeptLines (text : String) : List String :=
  ((pySplitStr text "\n").map pyStripStr).filter (fun l => 20 < l.length)

/-- Lines 161-166: deduplicate while preserving first-occurrence order
(`seen` set plus append). -/
def dedupFirst (seen : List String) : List String → List String
  | [] => []
  | l :: ls => if l ∈ seen then dedupFirst seen ls else l :: dedupFirst (l :: seen) ls

/-- Line 168: `deduped[:MAX_TRAIN_LINES_PER_URL]`. -/
def webTrainLimited (text : String) : List String :=
  (dedupFirst [] (webKeptLines text)).take MAX_TRAIN_LINES_PER_URL

/-! ## Source: `train_from_url` (lines 132-179) -/

/-- The collaborators `train_from_url` consults: whether the lazily
imported `newspaper` symbols are present (lines 16-21), and the article
extraction `Article(url, config, language); download(); parse()`
(lines 154-157).  `extract url language = none` models an exception
raised during download/parse (caught at line 178); `some text` is the
resulting `article.text or ""`. -/
structure NewsEnv where
  articleAvailable : Bool
  configurationAvailable : Bool
  extract : String → String → Option String

/-- One status report per exit path of `train_from_url`, mirroring each
`safe_gui_status` call site. -/
inductive TrainOutcome where
  | depsUnavailable
  | invalidURL
  | skippedRecent
  | trained (lines : List String)
  | noSubstantialLines
  | notEnoughText
  | trainError
  deriving DecidableEq

/-- The mutable state `train_from_url` touches: the Train-Recency map
`last_trained_at` and the log of Training Gate submissions
(`with trainer_lock: trainer.train(...)`), each submission recorded with
the URL it came from. -/
structure BotState where
  last_trained_at : List (String × Int)
  submissions : List (String × List String)
  deriving DecidableEq

/-- Outcome of `train_from_url` is reported via `safe_gui_status` with
these exact strings (the exception text interpolated into the
`trainError` message is abstracted away). -/
def train_status : TrainOutcome → String → String
  | .depsUnavailable, _ => "⚠️ Newspaper3k not installed; skipping URL training."
  | .invalidURL, url => "⚠️ Invalid URL skipped: " ++ url
  | .skippedRecent, url => "⏭️ Skipping recently trained URL: " ++ url
  | .trained _, url => "✅ Trained from: " ++ url
  | .noSubstantialLines, url => "⚠️ Extracted no substantial lines at: " ++ url
  | .notEnoughText, url => "⚠️ Not enough text at: " ++ url
  | .trainError, url => "⚠️ Error training from " ++ url ++ ": "

/-- `train_from_url` (lines 132-179): guard on the lazy imports, then
normalize, validate, recency-check, resolve language, extract, filter
(`len(text) > 100`), dedup, cap, and submit; `mark_trained` runs only
after a successful submission.  `now` is the value `time.time()` reads
during this call. -/
def train_from_url (env : NewsEnv) (st : BotState) (now : Int) (url₀ : String) :
    TrainOutcome × BotState :=
  if !env.articleAvailable || !env.configurationAvailable then
    (.depsUnavailable, st)
  else
    let url := normalize_url url₀
    if !is_valid_url url then (.invalidURL, st)
    else if !should_train_url st.last_trained_at now url then (.skippedRecent, st)
    else
      let language := resolve_language_from_url url
      match env.extract url language with
      | none => (.trainError, st)
      | some text =>
        if 100 < text.length then
          let lines := webKeptLines text
          let limited := (dedupFirst [] lines).take MAX_TRAIN_LINES_PER_URL
          if lines.isEmpty then (.noSubstantialLines, st)
          else
            (.trained limited,
             { last_trained_at := mark_trained st.last_trained_at now url
               submissions := st.submissions ++ [(url, limited)] })
        else (.notEnoughText, st)

/-! ## Source: link discovery inside `crawl_and_train` (lines 201-214) -/

def BINARY_EXTS : List String := [".pdf", ".zip", ".jpg", ".png", ".gif"]

/-- The per-link filter (lines 207-211): valid, same netloc as the base,
and the lowercased URL does not end with a binary extension. -/
def link_followable (base_url full_url : String) : Bool :=
  is_valid_url full_url
  && urlparse_netloc full_url = urlparse_netloc base_url
  && !(BINARY_EXTS.any (fun ext => ext.data <:+ (lowerString full_url).data))

/-- The anchor loop (lines 203-214).  `join` abstracts the library call
`urljoin(base_url, href)` (relative-to-absolute resolution lives in
`urllib.parse`, not in this repository); `hrefs` are the `href`
attributes BeautifulSoup yields in document order; `soup_links` is a set,
modelled as a duplicate-free list in insertion order; the loop breaks as
soon as the set has `MAX_LINKS_PER_BASE` members. -/
def crawl_and_train_links (join : String → String → String) (base_url : String) :
    List String → List String → List String
  | [], soup_links => soup_links
  | href :: rest, soup_links =>
    let full_url := normalize_url (join base_url href)
    let links :=
      if link_followable base_url full_url ∧ full_url ∉ soup_links then
        soup_links ++ [full_url]
      else soup_links
    if MAX_LINKS_PER_BASE ≤ links.length then links
    else crawl_and_train_links join base_url rest links

/-! ## Source: `get_retrying_session` (lines 86-98)

The `Retry` configuration constants below are the ones the source passes
to `urllib3.util.retry.Retry`; the retry loop that consumes them lives in
`urllib3`, not in this repository. -/

def RETRY_TOTAL : Nat := 3

def RETRY_BACKOFF_FACTOR : ℚ := 1 / 2

def RETRY_STATUS_FORCELIST : List Nat := [429, 500, 502, 503, 504]

def RETRY_ALLOWED_METHODS : List String := ["GET", "HEAD"]

/-- What one HTTP attempt can yield: a transport-level failure or a
status code. -/
inductive AttemptOutcome where
  | transportError
  | status (code : Nat)
  deriving DecidableEq

/-- Modelled from the spec: an attempt is retried exactly on
network-transport failure or on a status in the force-list. -/
def isRetryable : AttemptOutcome → Bool
  | .transportError => true
  | .status c => RETRY_STATUS_FORCELIST.contains c

/-- Modelled from the spec: the backoff before retry `i` (0-based) starts
at the configured factor and doubles each retry. -/
def retryBackoff (i : Nat) : ℚ := RETRY_BACKOFF_FACTOR * 2 ^ i

/-- Modelled from the spec: the bounded-retry fetch loop of the Retrying
Fetcher (the loop itself is `urllib3` code, absent from `src/`; only its
configuration is in `get_retrying_session`).  `responses i` is what
attempt `i` returns; `left` is the number of attempts still allowed.
Result: final status (`none` = transport failure or retries exhausted),
the backoff delays slept, and the number of attempts made. -/
def fetchAttempts (responses : Nat → AttemptOutcome) :
    Nat → Nat → Option Nat × List ℚ × Nat
  | 0, _ => (none, [], 0)
  | left + 1, i =>
    match responses i with
    | .transportError =>
      if left = 0 then (none, [], 1)
      else
        let r := fetchAttempts responses left (i + 1)
        (r.1, retryBackoff i :: r.2.1, r.2.2 + 1)
    | .status c =>
      if RETRY_STATUS_FORCELIST.contains c then
        if left = 0 then (none, [], 1)
        else
          let r := fetchAttempts responses left (i + 1)
          (r.1, retryBackoff i :: r.2.1, r.2.2 + 1)
      else (some c, [], 1)

/-- Modelled from the spec: a fetch with up to `RETRY_TOTAL` total
attempts. -/
def fetchWithRetry (responses : Nat → AttemptOutcome) : Option Nat × List ℚ × Nat :=
  fetchAttempts responses RETRY_TOTAL 0

/-- Scenario C of the spec: 503, 503, then 200. -/
def scenario503 : Nat → AttemptOutcome :=
  fun i => if i < 2 then .status 503 else .status 200

/-! ## Source: `periodic_training` (lines 228-237)

The one-shot `stop_event` is modelled by the index `s` of the first
observation at which `is_set()` reads true: the flag is monotone, so the
`i`-th observation (in program order) reads set iff `s ≤ i`.  The
observations, in program order, are: the `while` condition, the check
before each seed, and `stop_event.wait(CRAWL_INTERVAL)` (which returns
`True` without sleeping when the flag is set).  `fuel` bounds the number
of cycles unrolled (the real loop runs until cancelled). -/

/-- The per-cycle seed loop (lines 231-234): starting at observation
index `t`, attempt each seed unless the stop flag reads set first.
Returns the attempted seeds and the next observation index. -/
def cycleLoop (s : Nat) : List String → Nat → List String × Nat
  | [], t => ([], t)
  | u :: us, t =>
    if s ≤ t then ([], t + 1)
    else
      let r := cycleLoop s us (t + 1)
      (u :: r.1, r.2)

/-- Observable outcome of a bounded run of `periodic_training`: the seeds
attempted in each cycle, whether the loop exited via the stop flag
(`Stopped`), and how many full `CRAWL_INTERVAL` waits were slept. -/
structure SchedulerRun where
  cycles : List (List String)
  stopped : Bool
  fullWaits : Nat
  deriving DecidableEq

/-- `periodic_training` (lines 228-237), unrolled for `fuel` cycles from
observation index `t`. -/
def periodic_training (s : Nat) (seeds : List String) :
    Nat → Nat → SchedulerRun
  | 0, _ => ⟨[], false, 0⟩
  | fuel + 1, t =>
    if s ≤ t then ⟨[], true, 0⟩
    else
      let c := cycleLoop s seeds (t + 1)
      if s ≤ c.2 then ⟨[c.1], true, 0⟩
      else
        let r := periodic_training s seeds fuel (c.2 + 1)
        ⟨c.1 :: r.cycles, r.stopped, r.fullWaits + 1⟩

/-! ## Source: `cleaner.py` (`clean_corpus`)

The file read (`open(...).read()`) is I/O; the model takes the file
content as a string.  `str.splitlines` is modelled for the line
terminators `\n`, `\r\n` and `\r`; `re.sub(r"\s+", " ", line)` and
`str.strip` are modelled for the ASCII whitespace class. -/

/-- `str.splitlines` for `\n`, `\r\n`, `\r` (a trailing terminator yields
no empty final line). -/
def pySplitlinesAux : List Char → List Char → List (List Char)
  | [], acc => if acc.isEmpty then [] else [acc.reverse]
  | '\r' :: '\x0a' :: cs, acc => acc.reverse :: pySplitlinesAux cs []
  | '\x0a' :: cs, acc => acc.reverse :: pySplitlinesAux cs []
  | '\r' :: cs, acc => acc.reverse :: pySplitlinesAux cs []
  | c :: cs, acc => pySplitlinesAux cs (c :: acc)

def pySplitlines (cs : List Char) : List (List Char) :=
  pySplitlinesAux cs []

/-- `re.sub(r"\s+", " ", line)`: each maximal whitespace run becomes one
space. -/
def collapseWS : List Char → List Char
  | [] => []
  | [c] => if isPySpace c then [' '] else [c]
  | c₁ :: c₂ :: cs =>
    if isPySpace c₁ && isPySpace c₂ then collapseWS (c₂ :: cs)
    else (if isPySpace c₁ then ' ' else c₁) :: collapseWS (c₂ :: cs)

/-- One raw corpus line normalized: `re.sub` then `strip`. -/
def cleanLine (cs : List Char) : String :=
  String.mk (pyStrip (collapseWS cs))

/-- `clean_corpus` on the file content: normalize each line, keep those
longer than one character. -/
def clean_corpus (raw : String) : List String :=
  ((pySplitlines raw.data).map cleanLine).filter (fun l => 1 < l.length)

/-! ## Observation helpers used by the statements -/

/-- Did a `train_from_url` call submit to the Training Gate? -/
def isTrained : TrainOutcome → Bool
  | .trained _ => true
  | _ => false

/-- Number of Training Gate submissions recorded for a given URL. -/
def subsCount (subs : List (String × List String)) (url : String) : Nat :=
  (subs.filter (fun p => p.1 = url)).length

/-- Number of Training Gate submissions for `url` in a state. -/
def subCount (st : BotState) (url : String) : Nat :=
  subsCount st.submissions url

/-- Spec-side reading of "the URL's host is a Wikipedia subdomain": the
netloc ends in `.wikipedia.org`. -/
def isWikipediaSubdomainHost (url : String) : Bool :=
  ".wikipedia.org".data <:+ (urlparse_netloc url).data

/-! ## Concrete sample data for the witnesses -/

/-- An article text longer than 100 characters whose two lines are each
longer than 20 characters. -/
def sampleArticle : String :=
  "The quick brown fox jumps over the lazy dog near the river bank today.\n" ++
  "Another considerably long sentence about foxes and dogs by the river."

/-- An extraction environment where the lazy imports are present and
every URL yields `sampleArticle`. -/
def sampleEnv : NewsEnv :=
  ⟨true, true, fun _ _ => some sampleArticle⟩

/-- An environment with the `newspaper` import missing. -/
def sampleEnvOff : NewsEnv :=
  ⟨false, true, fun _ _ => none⟩

/-- A web page text with a duplicated long line and a short line. -/
def sampleWeb : String :=
  "aaaaaaaaaaaaaaaaaaaaaaaaa\nshort\naaaaaaaaaaaaaaaaaaaaaaaaa\nbbbbbbbbbbbbbbbbbbbbbbbbbbbbb"

/-- `urljoin` stand-in for the witnesses: every sampled href is already
absolute, and Python's `urljoin` returns an absolute href unchanged. -/
def sampleJoin : String → String → String :=
  fun _ href => href

/-- Anchors as in scenario B: a link with a fragment, a binary link, a
foreign-host link, a duplicate, and enough same-host links to hit the
cap. -/
def sampleHrefs : List String :=
  ["http://ex.com/a#f", "http://ex.com/b.pdf", "http://other.com/c",
   "http://ex.com/a", "http://ex.com/d", "http://ex.com/e",
   "http://ex.com/f", "http://ex.com/g", "http://ex.com/h"]

/-! ## Lemmas about first-occurrence deduplication -/

lemma mem_dedupFirst (l : String) :
    ∀ (ls seen : List String), l ∈ dedupFirst seen ls ↔ l ∈ ls ∧ l ∉ seen := by
  intro ls
  induction ls with
  | nil => intro seen; simp [dedupFirst]
  | cons a ls ih =>
    intro seen
    by_cases h : a ∈ seen
    · rw [dedupFirst, if_pos h, ih]
      constructor
      · rintro ⟨h₁, h₂⟩
        exact ⟨List.mem_cons_of_mem _ h₁, h₂⟩
      · rintro ⟨h₁, h₂⟩
        rcases List.mem_cons.mp h₁ with rfl | h₁
        · exact absurd h h₂
        · exact ⟨h₁, h₂⟩
    · rw [dedupFirst, if_neg h]
      constructor
      · intro hm
        rcases List.mem_cons.mp hm with rfl | hm
        · exact ⟨List.mem_cons_self _ _, h⟩
        · rw [ih] at hm
          refine ⟨List.mem_cons_of_mem _ hm.1, fun hs => hm.2 (List.mem_cons_of_mem _ hs)⟩
      · rintro ⟨h₁, h₂⟩
        rcases List.mem_cons.mp h₁ with rfl | h₁
        · exact List.mem_cons_self _ _
        · by_cases hla : l = a
          · subst hla; exact List.mem_cons_self _ _
          · refine List.mem_cons_of_mem _ ((ih (a :: seen)).mpr ⟨h₁, fun hm => ?_⟩)
            rcases List.mem_cons.mp hm with rfl | hm
            · exact hla rfl
            · exact h₂ hm

lemma dedupFirst_sublist : ∀ (ls seen : List String), List.Sublist (dedupFirst seen ls) ls := by
  intro ls
  induction ls with
  | nil => intro seen; simp [dedupFirst]
  | cons a ls ih =>
    intro seen
    rw [dedupFirst]
    split
    · exact (ih seen).cons _
    · exact (ih (a :: seen)).cons₂ _

lemma dedupFirst_nodup : ∀ (ls seen : List String), (dedupFirst seen ls).Nodup := by
  intro ls
  induction ls with
  | nil => intro seen; simp [dedupFirst]
  | cons a ls ih =>
    intro seen
    rw [dedupFirst]
    split
    · exact ih seen
    · refine List.nodup_cons.mpr ⟨fun hm => ?_, ih (a :: seen)⟩
      exact ((mem_dedupFirst a ls (a :: seen)).mp hm).2 (List.mem_cons_self _ _)

/-! ## Claim theorems -/

/-- C2: the line-filtering step of `train_from_url` keeps exactly the
lines whose stripped length exceeds 20 characters, deduplicates them
preserving first-occurrence order (no duplicates in the output, nothing
lost by deduplication), and truncates to at most
`MAX_TRAIN_LINES_PER_URL = 200` lines. -/
theorem claim_C2_line_filtering (text : String) :
    (∀ l, l ∈ webKeptLines text ↔ l ∈ (pySplitStr text "\n").map pyStripStr ∧ 20 < l.length)
  ∧ (∀ l, l ∈ dedupFirst [] (webKeptLines text) ↔ l ∈ webKeptLines text)
  ∧ List.Sublist (webTrainLimited text) (webKeptLines text)
  ∧ (webTrainLimited text).Nodup
  ∧ (webTrainLimited text).length ≤ MAX_TRAIN_LINES_PER_URL := by
  refine ⟨?_, ?_, ?_, ?_, ?_⟩
  · intro l
    rw [webKeptLines, List.mem_filter]
    simp
  · intro l
    rw [mem_dedupFirst]
    simp
  · exact (List.take_sublist _ _).trans (dedupFirst_sublist _ _)
  · exact (dedupFirst_nodup _ _).sublist (List.take_sublist _ _)
  · exact List.length_take_le _ _

/-- Witness for C2 at `sampleWeb`: the short line is dropped, the
duplicated long line appears, and the output is duplicate-free and within
the cap. -/
theorem claim_C2_witness :
    "aaaaaaaaaaaaaaaaaaaaaaaaa" ∈ webKeptLines sampleWeb
  ∧ (webTrainLimited sampleWeb).Nodup
  ∧ (webTrainLimited sampleWeb).length ≤ MAX_TRAIN_LINES_PER_URL :=
  ⟨((claim_C2_line_filtering sampleWeb).1 "aaaaaaaaaaaaaaaaaaaaaaaaa").mpr
      ⟨by decide, by decide⟩,
   (claim_C2_line_filtering sampleWeb).2.2.2.1,
   (claim_C2_line_filtering sampleWeb).2.2.2.2⟩

/-- C9: `clean_corpus` keeps, in order, exactly the whitespace-normalized
lines longer than one character; on the scenario-A content it yields
`["Hi", "How are you?"]`. -/
theorem claim_C9_clean_corpus (raw : String) :
    clean_corpus "Hi\n\nHow  are   you?\nX\n" = ["Hi", "How are you?"]
  ∧ List.Sublist (clean_corpus raw) ((pySplitlines raw.data).map cleanLine)
  ∧ (∀ l ∈ clean_corpus raw, 1 < l.length)
  ∧ (∀ l ∈ (pySplitlines raw.data).map cleanLine, 1 < l.length → l ∈ clean_corpus raw) := by
  refine ⟨by decide, List.filter_sublist _, ?_, ?_⟩
  · intro l hl
    have := (List.mem_filter.mp hl).2
    simpa using this
  · intro l hl hlen
    rw [clean_corpus, List.mem_filter]
    exact ⟨hl, by simpa using hlen⟩

/-- Witness for C9: the scenario-A corpus file, with the kept line `"Hi"`
recovered through the filter characterization. -/
theorem claim_C9_witness :
    clean_corpus "Hi\n\nHow  are   you?\nX\n" = ["Hi", "How are you?"]
  ∧ "Hi" ∈ clean_corpus "Hi\n\nHow  are   you?\nX\n" :=
  ⟨(claim_C9_clean_corpus "").1,
   (claim_C9_clean_corpus "Hi\n\nHow  are   you?\nX\n").2.2.2 "Hi" (by decide) (by decide)⟩

/-- C10: with the article-extraction dependency missing (`Article is
None or Configuration is None`), `train_from_url` reports the status
message and returns with the state — recency map and submissions —
untouched, raising nothing (total function). -/
theorem claim_C10_deps_unavailable (env : NewsEnv) (st : BotState) (now : Int) (u : String)
    (h : env.articleAvailable = false ∨ env.configurationAvailable = false) :
    train_from_url env st now u = (.depsUnavailable, st)
  ∧ train_status .depsUnavailable u
      = "⚠️ Newspaper3k not installed; skipping URL training." := by
  refine ⟨?_, rfl⟩
  rcases h with h | h <;> simp [train_from_url, h]

/-- Witness for C10 at a concrete environment with the import missing. -/
theorem claim_C10_witness :
    train_from_url sampleEnvOff ⟨[], []⟩ 0 "http://a.com/x" = (.depsUnavailable, ⟨[], []⟩)
  ∧ train_status .depsUnavailable "http://a.com/x"
      = "⚠️ Newspaper3k not installed; skipping URL training." :=
  claim_C10_deps_unavailable sampleEnvOff ⟨[], []⟩ 0 "http://a.com/x" (Or.inl rfl)

/-! ## Lemmas about the Retrying Fetcher model -/

lemma fetchAttempts_spec (responses : Nat → AttemptOutcome) : ∀ (f i : Nat),
    (fetchAttempts responses f i).2.2 ≤ f
  ∧ (0 < f → 0 < (fetchAttempts responses f i).2.2)
  ∧ (∀ j, j + 1 < (fetchAttempts responses f i).2.2 → isRetryable (responses (i + j)) = true)
  ∧ (fetchAttempts responses f i).2.1
      = (List.range ((fetchAttempts responses f i).2.2 - 1)).map (fun j => retryBackoff (i + j)) := by
  intro f
  induction f with
  | zero => intro i; simp [fetchAttempts]
  | succ left ih =>
    intro i
    obtain ⟨ih₁, ih₂, ih₃, ih₄⟩ := ih (i + 1)
    by_cases hr : isRetryable (responses i) = true
    · have hstep :
          (left = 0 ∧ fetchAttempts responses (left + 1) i = (none, [], 1)) ∨
          (0 < left ∧ fetchAttempts responses (left + 1) i =
            ((fetchAttempts responses left (i + 1)).1,
             retryBackoff i :: (fetchAttempts responses left (i + 1)).2.1,
             (fetchAttempts responses left (i + 1)).2.2 + 1)) := by
        cases hres : responses i with
        | transportError =>
          by_cases hl : left = 0
          · exact Or.inl ⟨hl, by simp [fetchAttempts, hres, hl]⟩
          · exact Or.inr ⟨Nat.pos_of_ne_zero hl, by simp [fetchAttempts, hres, hl]⟩
        | status c =>
          have hmem : c ∈ RETRY_STATUS_FORCELIST := by
            simpa [isRetryable, hres] using hr
          by_cases hl : left = 0
          · exact Or.inl ⟨hl, by simp [fetchAttempts, hres, hl, hmem]⟩
          · exact Or.inr ⟨Nat.pos_of_ne_zero hl, by simp [fetchAttempts, hres, hl, hmem]⟩
      rcases hstep with ⟨hl, heq⟩ | ⟨hl, heq⟩
      · rw [heq]
        simp
      · have h22 : (fetchAttempts responses (left + 1) i).2.2
            = (fetchAttempts responses left (i + 1)).2.2 + 1 := by rw [heq]
        have h21 : (fetchAttempts responses (left + 1) i).2.1
            = retryBackoff i :: (fetchAttempts responses left (i + 1)).2.1 := by rw [heq]
        have hn : 0 < (fetchAttempts responses left (i + 1)).2.2 := ih₂ hl
        refine ⟨by omega, fun _ => by omega, ?_, ?_⟩
        · intro j hj
          rw [h22] at hj
          cases j with
          | zero => simpa using hr
          | succ j' =>
            have := ih₃ j' (by omega)
            simpa [Nat.add_comm, Nat.add_assoc, Nat.add_left_comm] using this
        · rw [h21, h22, ih₄]
          obtain ⟨m, hm⟩ := Nat.exists_eq_add_of_lt hn
          rw [hm]
          simp only [Nat.add_sub_cancel, Nat.zero_add]
          rw [List.range_succ_eq_map]
          simp only [List.map_cons, List.map_map]
          refine congrArg₂ _ (by simp) ?_
          refine List.map_congr_left fun j _ => ?_
          simp only [Function.comp_apply]
          congr 1
          omega
    · cases hres : responses i with
      | transportError =>
        rw [hres] at hr
        simp [isRetryable] at hr
      | status c =>
        have hmem : c ∉ RETRY_STATUS_FORCELIST := by
          intro hc
          exact hr (by simpa [isRetryable, hres] using hc)
        have heq : fetchAttempts responses (left + 1) i = (some c, [], 1) := by
          simp [fetchAttempts, hres, hmem]
        rw [heq]
        simp

/-- C3: the Retrying Fetcher makes at most `RETRY_TOTAL = 3` attempts,
retries only on transport failure or a status in
`{429, 500, 502, 503, 504}`, sleeps the doubling backoff sequence
starting at `RETRY_BACKOFF_FACTOR = 0.5` between attempts, and on the
scenario-C responses 503, 503, 200 succeeds on the third attempt after
two backoffs of 0.5 and 1 time-units. -/
theorem claim_C3_retrying_fetcher (responses : Nat → AttemptOutcome) :
    (fetchWithRetry responses).2.2 ≤ RETRY_TOTAL
  ∧ (∀ j, j + 1 < (fetchWithRetry responses).2.2 → isRetryable (responses j) = true)
  ∧ (fetchWithRetry responses).2.1
      = (List.range ((fetchWithRetry responses).2.2 - 1)).map retryBackoff
  ∧ fetchWithRetry scenario503 = (some 200, [retryBackoff 0, retryBackoff 1], 3)
  ∧ retryBackoff 0 = 1 / 2 ∧ retryBackoff 1 = 1 := by
  obtain ⟨h₁, _, h₃, h₄⟩ := fetchAttempts_spec responses RETRY_TOTAL 0
  refine ⟨h₁, fun j hj => by simpa using h₃ j hj, by simpa using h₄, ?_, ?_, ?_⟩
  · simp [fetchWithRetry, fetchAttempts, scenario503, RETRY_TOTAL, RETRY_STATUS_FORCELIST]
  · norm_num [retryBackoff, RETRY_BACKOFF_FACTOR]
  · norm_num [retryBackoff, RETRY_BACKOFF_FACTOR]

/-- Witness for C3 on the scenario-C responses: both retried attempts
were retryable and the fetch succeeds on the third attempt with backoffs
0.5 and 1. -/
theorem claim_C3_witness :
    isRetryable (scenario503 0) = true
  ∧ isRetryable (scenario503 1) = true
  ∧ fetchWithRetry scenario503 = (some 200, [retryBackoff 0, retryBackoff 1], 3) := by
  have h := claim_C3_retrying_fetcher scenario503
  have hn := h.2.2.2.1
  refine ⟨h.2.1 0 ?_, h.2.1 1 ?_, hn⟩
  · rw [hn]; norm_num
  · rw [hn]; norm_num

/-! ## Lemmas about the Scheduler model -/

lemma cycleLoop_take : ∀ (seeds : List String) (k t : Nat), k < seeds.length →
    cycleLoop (t + k) seeds t = (seeds.take k, t + k + 1) := by
  intro seeds
  induction seeds with
  | nil => intro k t hk; simp at hk
  | cons u us ih =>
    intro k t hk
    cases k with
    | zero => rw [cycleLoop]; simp
    | succ k' =>
      rw [cycleLoop, if_neg (by omega : ¬ (t + (k' + 1) ≤ t))]
      have hrec := ih k' (t + 1) (by simpa using Nat.lt_of_succ_lt_succ hk)
      rw [show t + (k' + 1) = (t + 1) + k' by omega] at *
      rw [hrec]
      simp only [List.take_succ_cons, Prod.mk.injEq]

/-- C6: if the cancellation signal becomes set after seed `k` of a cycle
has been processed (the `k` first observations of the cycle read unset,
all later ones read set), then that cycle attempts exactly the first `k`
seeds, the remaining seeds are never attempted, the loop reaches
`Stopped`, and no full `CRAWL_INTERVAL` wait is slept. -/
theorem claim_C6_scheduler_cancellation (seeds : List String) (k t fuel : Nat)
    (hk : k < seeds.length) (hf : 0 < fuel) :
    periodic_training (t + 1 + k) seeds fuel t = ⟨[seeds.take k], true, 0⟩ := by
  cases fuel with
  | zero => exact absurd hf (by simp)
  | succ f =>
    rw [periodic_training, if_neg (by omega : ¬ (t + 1 + k ≤ t))]
    have hc := cycleLoop_take seeds k (t + 1) hk
    rw [show t + 1 + k = (t + 1) + k from rfl, hc]
    simp only []
    rw [if_pos (by omega : (t + 1) + k ≤ (t + 1) + k + 1)]

/-- Witness for C6, scenario D: three seeds, signal set after seed 1 —
only seed 1 attempted, `Stopped` reached, no full wait. -/
theorem claim_C6_witness :
    periodic_training 2 ["seed1", "seed2", "seed3"] 1 0
      = ⟨[["seed1"]], true, 0⟩ :=
  claim_C6_scheduler_cancellation ["seed1", "seed2", "seed3"] 1 0 1 (by decide) (by decide)

/-! ## Lemmas about `normalize_url` -/

lemma pyLower_eq_hash {c : Char} (h : pyLower c = '#') : c = '#' := by
  unfold pyLower at h
  split at h <;> first | assumption | exact absurd h (by decide)

lemma splitScheme_no_hash (cs : List Char) : '#' ∉ (splitScheme cs).1 := by
  unfold splitScheme
  rcases hs : cs.span (fun c => c ≠ ':') with ⟨pre, rest⟩
  split
  split
  · split
    · simp
    · split
      · rename_i hcond
        simp only [Bool.and_eq_true, List.all_eq_true] at hcond
        intro hmem
        obtain ⟨c, hc, hlow⟩ := List.mem_map.mp hmem
        have hc' : c = '#' := pyLower_eq_hash hlow
        subst hc'
        exact absurd (hcond.2 _ hc) (by decide)
      · simp
  · simp

lemma splitNetloc_no_hash (cs : List Char) : '#' ∉ (splitNetloc cs).1 := by
  unfold splitNetloc
  split
  · intro hmem
    have := List.mem_takeWhile_imp hmem
    simp [isNetlocEnd] at this
  · simp

lemma mem_pyBeforeFrag_ne_hash {u : String} {c : Char} (h : c ∈ pyBeforeFrag u) :
    c ≠ '#' := by
  have := List.mem_takeWhile_imp h
  simpa using this

lemma pyUrlsplit_no_hash {u : String} {sch nl path query : List Char}
    (h : pyUrlsplit u = some (sch, nl, path, query)) :
    '#' ∉ sch ∧ '#' ∉ nl ∧ '#' ∉ path ∧ '#' ∉ query := by
  unfold pyUrlsplit at h
  split at h
  · exact absurd h (by simp)
  · rw [Option.some.injEq] at h
    simp only [Prod.mk.injEq] at h
    obtain ⟨h₁, h₂, h₃, h₄⟩ := h
    refine ⟨?_, ?_, ?_, ?_⟩
    · rw [← h₁]; exact splitScheme_no_hash _
    · rw [← h₂]; exact splitNetloc_no_hash _
    · rw [← h₃]
      intro hmem
      exact mem_pyBeforeFrag_ne_hash ((List.takeWhile_sublist _).subset hmem) rfl
    · rw [← h₄]
      intro hmem
      have hmem' : '#' ∈ pyBeforeFrag u :=
        (List.dropWhile_sublist _).subset ((List.drop_sublist _ _).subset hmem)
      exact mem_pyBeforeFrag_ne_hash hmem' rfl

lemma pyAddNetloc_no_hash {nl path : List Char} (hn : '#' ∉ nl) (hp : '#' ∉ path) :
    '#' ∉ pyAddNetloc nl path := by
  unfold pyAddNetloc
  split
  · intro hmem
    rcases List.mem_cons.mp hmem with h | hmem
    · exact absurd h (by decide)
    rcases List.mem_cons.mp hmem with h | hmem
    · exact absurd h (by decide)
    rcases List.mem_append.mp hmem with h | hmem
    · exact hn h
    · split at hmem
      · rcases List.mem_cons.mp hmem with h | h
        · exact absurd h (by decide)
        · exact hp h
      · exact hp hmem
  · exact hp

lemma pyAddScheme_no_hash {sch u : List Char} (hs : '#' ∉ sch) (hu : '#' ∉ u) :
    '#' ∉ pyAddScheme sch u := by
  unfold pyAddScheme
  split
  · intro hmem
    rcases List.mem_append.mp hmem with h | hmem
    · exact hs h
    rcases List.mem_cons.mp hmem with h | h
    · exact absurd h (by decide)
    · exact hu h
  · exact hu

lemma pyAddQuery_no_hash {query u : List Char} (hq : '#' ∉ query) (hu : '#' ∉ u) :
    '#' ∉ pyAddQuery query u := by
  unfold pyAddQuery
  split
  · intro hmem
    rcases List.mem_append.mp hmem with h | hmem
    · exact hu h
    rcases List.mem_cons.mp hmem with h | h
    · exact absurd h (by decide)
    · exact hq h
  · exact hu

lemma pyUrlunsplit_no_hash {sch nl path query : List Char}
    (hs : '#' ∉ sch) (hn : '#' ∉ nl) (hp : '#' ∉ path) (hq : '#' ∉ query) :
    '#' ∉ pyUrlunsplit sch nl path query :=
  pyAddQuery_no_hash hq (pyAddScheme_no_hash hs (pyAddNetloc_no_hash hn hp))

/-- The result of `normalize_url` never contains `#`. -/
lemma normalize_url_no_hash (u : String) : '#' ∉ (normalize_url u).data := by
  unfold normalize_url
  split
  · split
    · rename_i sch nl path query heq
      obtain ⟨h₁, h₂, h₃, h₄⟩ := pyUrlsplit_no_hash heq
      exact pyUrlunsplit_no_hash h₁ h₂ h₃ h₄
    · intro hmem
      have := List.mem_takeWhile_imp hmem
      simp at this
  · rename_i hno
    exact hno

/-- Inputs without `#` come back unchanged. -/
lemma normalize_url_of_no_hash {u : String} (h : '#' ∉ u.data) : normalize_url u = u := by
  unfold normalize_url
  rw [if_neg h]

/-- C7, counterexample: the claim says a malformed input comes back
unchanged, but `normalize_url` strips the fragment of malformed inputs
too — `"notaurl#frag"` is not a valid URL, yet it comes back as
`"notaurl"`, not unchanged. -/
theorem claim_C7_counterexample :
    is_valid_url "notaurl#frag" = false
  ∧ normalize_url "notaurl#frag" ≠ "notaurl#frag" := by decide

/-- C7, amended: `normalize_url` strips the fragment of every input —
well-formed or not, the result never contains `#` — and an input with no
`#` (in particular any fragment-free URL, malformed or not) is returned
unchanged; the function is total (never raises). -/
theorem claim_C7_amended_normalize (u : String) :
    '#' ∉ (normalize_url u).data
  ∧ ('#' ∉ u.data → normalize_url u = u) :=
  ⟨normalize_url_no_hash u, fun h => normalize_url_of_no_hash h⟩

/-- Witness for C7 at a fragment-free URL. -/
theorem claim_C7_witness :
    '#' ∉ ("http://a.com/x" : String).data
  ∧ normalize_url "http://a.com/x" = "http://a.com/x" :=
  ⟨by decide, (claim_C7_amended_normalize "http://a.com/x").2 (by decide)⟩

/-- C8: `normalize_url` is idempotent — its output never contains `#`,
and `#`-free inputs are fixed points. -/
theorem claim_C8_normalize_idempotent (u : String) :
    normalize_url (normalize_url u) = normalize_url u :=
  normalize_url_of_no_hash (normalize_url_no_hash u)

/-- C5, counterexample: the guard is a substring test on the whole URL,
not on the host — `"https://example.com/wikipedia.org"` has host
`example.com`, which is no Wikipedia subdomain, yet the hint is
`"example"`, not `"en"`. -/
theorem claim_C5_counterexample :
    isWikipediaSubdomainHost "https://example.com/wikipedia.org" = false
  ∧ urlparse_netloc "https://example.com/wikipedia.org" = "example.com"
  ∧ resolve_language_from_url "https://example.com/wikipedia.org" = "example"
  ∧ resolve_language_from_url "https://example.com/wikipedia.org" ≠ "en" := by decide

/-- C5, amended: the hint is `"en"` for every URL that does not contain
the substring `"wikipedia.org"` anywhere; when the substring occurs, the
hint is the text between the first `//` and the next `.` — the
subdomain language code on standard Wikipedia URLs (`"en"` when that text
is empty) — which for a non-Wikipedia URL mentioning `wikipedia.org` in
its path can differ from both `"en"` and any language code. -/
theorem claim_C5_amended_language (u : String) :
    (¬ ("wikipedia.org".data <:+: u.data) → resolve_language_from_url u = "en")
  ∧ resolve_language_from_url "https://de.wikipedia.org/wiki/Berlin" = "de"
  ∧ resolve_language_from_url "https://en.wikipedia.org/wiki/Artificial_intelligence" = "en"
  ∧ resolve_language_from_url "https://.wikipedia.org/Main" = "en"
  ∧ isWikipediaSubdomainHost "https://de.wikipedia.org/wiki/Berlin" = true := by
  refine ⟨?_, by decide, by decide, by decide, by decide⟩
  intro h
  unfold resolve_language_from_url
  rw [if_neg h]

/-- Witness for C5 at the second seed URL of the source, which contains
no `wikipedia.org`. -/
theorem claim_C5_witness :
    resolve_language_from_url "https://www.brainyquote.com/topics/motivational-quotes"
      = "en" :=
  (claim_C5_amended_language "https://www.brainyquote.com/topics/motivational-quotes").1
    (by decide)

/-! ## Lemmas about link discovery -/

lemma crawl_links_invariant (join : String → String → String) (base : String) :
    ∀ (hrefs acc : List String),
      acc.length < MAX_LINKS_PER_BASE →
      acc.Nodup →
      (∀ u ∈ acc, link_followable base u = true) →
      (crawl_and_train_links join base hrefs acc).length ≤ MAX_LINKS_PER_BASE
    ∧ (crawl_and_train_links join base hrefs acc).Nodup
    ∧ (∀ u ∈ crawl_and_train_links join base hrefs acc, link_followable base u = true) := by
  intro hrefs
  induction hrefs with
  | nil =>
    intro acc h₁ h₂ h₃
    rw [crawl_and_train_links]
    exact ⟨Nat.le_of_lt h₁, h₂, h₃⟩
  | cons href rest ih =>
    intro acc h₁ h₂ h₃
    rw [crawl_and_train_links]
    by_cases hc : link_followable base (normalize_url (join base href)) = true
      ∧ normalize_url (join base href) ∉ acc
    · rw [if_pos hc]
      have hlen : (acc ++ [normalize_url (join base href)]).length = acc.length + 1 := by
        simp
      have hnd : (acc ++ [normalize_url (join base href)]).Nodup := by
        simp [List.nodup_append, h₂, hc.2]
      have hmem : ∀ u ∈ acc ++ [normalize_url (join base href)],
          link_followable base u = true := by
        intro u hu
        rcases List.mem_append.mp hu with hu | hu
        · exact h₃ u hu
        · rcases List.mem_singleton.mp hu with rfl
          exact hc.1
      by_cases hfull : MAX_LINKS_PER_BASE ≤ (acc ++ [normalize_url (join base href)]).length
      · rw [if_pos hfull]
        exact ⟨by omega, hnd, hmem⟩
      · rw [if_neg hfull]
        exact ih _ (by omega) hnd hmem
    · rw [if_neg hc]
      rw [if_neg (by omega : ¬ MAX_LINKS_PER_BASE ≤ acc.length)]
      exact ih _ h₁ h₂ h₃

/-- C4: for every resolution function, base URL and anchor list, link
discovery collects at most `MAX_LINKS_PER_BASE = 5` distinct URLs, and
every collected URL is valid, has the netloc of the base URL, and does
not end (case-insensitively) with any configured binary extension. -/
theorem claim_C4_link_discovery (join : String → String → String) (base : String)
    (hrefs : List String) :
    (crawl_and_train_links join base hrefs []).length ≤ MAX_LINKS_PER_BASE
  ∧ (crawl_and_train_links join base hrefs []).Nodup
  ∧ (∀ u ∈ crawl_and_train_links join base hrefs [],
       is_valid_url u = true
     ∧ urlparse_netloc u = urlparse_netloc base
     ∧ ∀ ext ∈ BINARY_EXTS, ¬ (ext.data <:+ (lowerString u).data)) := by
  obtain ⟨h₁, h₂, h₃⟩ :=
    crawl_links_invariant join base hrefs [] (by simp [MAX_LINKS_PER_BASE])
      List.nodup_nil (by simp)
  refine ⟨h₁, h₂, fun u hu => ?_⟩
  have hf := h₃ u hu
  rw [link_followable] at hf
  simp only [Bool.and_eq_true, Bool.not_eq_true', decide_eq_true_eq] at hf
  obtain ⟨⟨hv, hnet⟩, hext⟩ := hf
  refine ⟨hv, hnet, fun ext hmem hsuf => ?_⟩
  have := List.any_eq_false.mp hext ext hmem
  simp [hsuf] at this

/-- Witness for C4 on the scenario-B anchors: the cap holds and the
collected normalized link `http://ex.com/a` is valid, same-host and
non-binary. -/
theorem claim_C4_witness :
    (crawl_and_train_links sampleJoin "http://ex.com" sampleHrefs []).length
      ≤ MAX_LINKS_PER_BASE
  ∧ is_valid_url "http://ex.com/a" = true
  ∧ urlparse_netloc "http://ex.com/a" = urlparse_netloc "http://ex.com"
  ∧ ¬ (".pdf".data <:+ (lowerString "http://ex.com/a").data) := by
  have h := claim_C4_link_discovery sampleJoin "http://ex.com" sampleHrefs
  have hm := h.2.2 "http://ex.com/a" (by decide)
  exact ⟨h.1, hm.1, hm.2.1, hm.2.2 ".pdf" (by decide)⟩

/-! ## Lemmas about `train_from_url` -/

lemma subsCount_append (subs : List (String × List String)) (v w : String)
    (lim : List String) :
    subsCount (subs ++ [(v, lim)]) w
      = subsCount subs w + if v = w then 1 else 0 := by
  rw [subsCount, subsCount, List.filter_append, List.length_append]
  by_cases h : v = w <;> simp [h]

/-- Every call either leaves the state untouched (and does not submit) or
submits exactly once and stamps the recency map with `now`. -/
lemma train_from_url_cases (env : NewsEnv) (st : BotState) (now : Int) (u : String) :
    (isTrained (train_from_url env st now u).1 = false
      ∧ (train_from_url env st now u).2 = st)
  ∨ (∃ lim, train_from_url env st now u =
      (.trained lim,
       ⟨mark_trained st.last_trained_at now (normalize_url u),
        st.submissions ++ [(normalize_url u, lim)]⟩)) := by
  simp only [train_from_url]
  split
  · exact Or.inl ⟨rfl, rfl⟩
  · split
    · exact Or.inl ⟨rfl, rfl⟩
    · split
      · exact Or.inl ⟨rfl, rfl⟩
      · split
        · exact Or.inl ⟨rfl, rfl⟩
        · split
          · split
            · exact Or.inl ⟨rfl, rfl⟩
            · exact Or.inr ⟨_, rfl⟩
          · exact Or.inl ⟨rfl, rfl⟩

/-- A call that submitted passed every guard on its way. -/
lemma train_trained_guards (env : NewsEnv) (st : BotState) (now : Int) (u : String)
    (h : isTrained (train_from_url env st now u).1 = true) :
    env.articleAvailable = true ∧ env.configurationAvailable = true
  ∧ is_valid_url (normalize_url u) = true
  ∧ should_train_url st.last_trained_at now (normalize_url u) = true := by
  revert h
  simp only [train_from_url]
  split
  · intro h; simp [isTrained] at h
  · rename_i hdeps
    simp only [Bool.not_eq_true, Bool.or_eq_false_iff, Bool.not_eq_false'] at hdeps
    obtain ⟨ha, hc⟩ := hdeps
    split
    · intro h; simp [isTrained] at h
    · rename_i hvalid
      simp only [Bool.not_eq_true, Bool.not_eq_false'] at hvalid
      split
      · intro h; simp [isTrained] at h
      · rename_i hrecent
        simp only [Bool.not_eq_true, Bool.not_eq_false'] at hrecent
        intro _
        exact ⟨ha, hc, hvalid, hrecent⟩

/-- A call whose guards all pass and whose extraction yields substantial
text submits the filtered, deduplicated, capped lines and stamps the
recency map. -/
lemma train_success (env : NewsEnv) (st : BotState) (now : Int) (u : String)
    (text : String)
    (ha : env.articleAvailable = true) (hc : env.configurationAvailable = true)
    (hv : is_valid_url (normalize_url u) = true)
    (hs : should_train_url st.last_trained_at now (normalize_url u) = true)
    (he : env.extract (normalize_url u) (resolve_language_from_url (normalize_url u))
            = some text)
    (hl : 100 < text.length)
    (hne : (webKeptLines text).isEmpty = false) :
    train_from_url env st now u =
      (.trained ((dedupFirst [] (webKeptLines text)).take MAX_TRAIN_LINES_PER_URL),
       ⟨mark_trained st.last_trained_at now (normalize_url u),
        st.submissions ++ [(normalize_url u,
          (dedupFirst [] (webKeptLines text)).take MAX_TRAIN_LINES_PER_URL)]⟩) := by
  simp only [train_from_url, ha, hc, hv, hs, he, hl, hne]
  simp

lemma lookupLast_mark (m : List (String × Int)) (t : Int) (url : String) :
    lookupLast (mark_trained m t url) url = some t := by
  simp [lookupLast, mark_trained]

lemma should_train_mark (m : List (String × Int)) (t t' : Int) (url : String) :
    should_train_url (mark_trained m t url) t' url
      = decide (TRAIN_TTL_SECONDS ≤ t' - t) := by
  simp [should_train_url, lookupLast_mark]

/-- C1: two `train_from_url` calls on the same URL, the second within
the 6-hour cooldown of the first, add at most one Training Gate
submission for any URL; a call that submits stamps the recency map with
its call time; after the cooldown has elapsed a second call (whose
extraction again yields substantial text) submits again, for exactly two
submissions; and a call that does not submit — in particular one whose
filtering leaves zero lines — leaves the state untouched, so it cannot
suppress a future attempt. -/
theorem claim_C1_train_cooldown (env env' : NewsEnv) (st : BotState) (u : String)
    (t₁ t₂ : Int) :
    (t₂ - t₁ < TRAIN_TTL_SECONDS →
       ∀ v, subCount (train_from_url env' (train_from_url env st t₁ u).2 t₂ u).2 v
              ≤ subCount st v + 1)
  ∧ (isTrained (train_from_url env st t₁ u).1 = true →
       lookupLast (train_from_url env st t₁ u).2.last_trained_at (normalize_url u)
         = some t₁)
  ∧ (∀ text,
       isTrained (train_from_url env st t₁ u).1 = true →
       TRAIN_TTL_SECONDS ≤ t₂ - t₁ →
       env'.articleAvailable = true → env'.configurationAvailable = true →
       env'.extract (normalize_url u) (resolve_language_from_url (normalize_url u))
         = some text →
       100 < text.length →
       (webKeptLines text).isEmpty = false →
       isTrained (train_from_url env' (train_from_url env st t₁ u).2 t₂ u).1 = true
     ∧ subCount (train_from_url env' (train_from_url env st t₁ u).2 t₂ u).2
         (normalize_url u)
         = subCount st (normalize_url u) + 2)
  ∧ (isTrained (train_from_url env st t₁ u).1 = false →
       (train_from_url env st t₁ u).2 = st) := by
  refine ⟨?_, ?_, ?_, ?_⟩
  · -- at most one submission within the cooldown
    intro hlt v
    rcases train_from_url_cases env st t₁ u with ⟨hout, hst⟩ | ⟨lim, heq⟩
    · rw [hst]
      rcases train_from_url_cases env' st t₂ u with ⟨hout2, hst2⟩ | ⟨lim2, heq2⟩
      · rw [hst2]
        exact Nat.le_succ _
      · rw [heq2]
        show subsCount (st.submissions ++ [(normalize_url u, lim2)]) v
          ≤ subsCount st.submissions v + 1
        rw [subsCount_append]
        by_cases h : normalize_url u = v <;> simp [h]
    · have hst1 : (train_from_url env st t₁ u).2
          = ⟨mark_trained st.last_trained_at t₁ (normalize_url u),
             st.submissions ++ [(normalize_url u, lim)]⟩ := by rw [heq]
      rcases train_from_url_cases env' (train_from_url env st t₁ u).2 t₂ u
        with ⟨hout2, hst2⟩ | ⟨lim2, heq2⟩
      · rw [hst2, hst1]
        show subsCount (st.submissions ++ [(normalize_url u, lim)]) v
          ≤ subsCount st.submissions v + 1
        rw [subsCount_append]
        by_cases h : normalize_url u = v <;> simp [h]
      · -- a second submission inside the cooldown is impossible
        have htr2 : isTrained (train_from_url env' (train_from_url env st t₁ u).2 t₂ u).1
            = true := by rw [heq2]; rfl
        have hg := train_trained_guards env' _ t₂ u htr2
        have h4 := hg.2.2.2
        rw [hst1] at h4
        have h4' : should_train_url
            (mark_trained st.last_trained_at t₁ (normalize_url u)) t₂ (normalize_url u)
            = true := h4
        rw [should_train_mark] at h4'
        have := of_decide_eq_true h4'
        omega
  · -- the recency stamp of a submitting call
    intro htr
    rcases train_from_url_cases env st t₁ u with ⟨hout, _⟩ | ⟨lim, heq⟩
    · rw [htr] at hout
      exact absurd hout (by simp)
    · rw [heq]
      exact lookupLast_mark _ _ _
  · -- a second submission after the cooldown
    intro text htr httl ha hc he hl hne
    rcases train_from_url_cases env st t₁ u with ⟨hout, _⟩ | ⟨lim, heq⟩
    · rw [htr] at hout
      exact absurd hout (by simp)
    · have hst1 : (train_from_url env st t₁ u).2
          = ⟨mark_trained st.last_trained_at t₁ (normalize_url u),
             st.submissions ++ [(normalize_url u, lim)]⟩ := by rw [heq]
      have hg := train_trained_guards env st t₁ u htr
      have hs2 : should_train_url
          (mark_trained st.last_trained_at t₁ (normalize_url u)) t₂ (normalize_url u)
          = true := by
        rw [should_train_mark]
        exact decide_eq_true httl
      have hsucc := train_success env'
        ⟨mark_trained st.last_trained_at t₁ (normalize_url u),
         st.submissions ++ [(normalize_url u, lim)]⟩
        t₂ u text ha hc hg.2.2.1 hs2 he hl hne
      rw [hst1, hsucc]
      refine ⟨rfl, ?_⟩
      show subsCount ((st.submissions ++ [(normalize_url u, lim)])
          ++ [(normalize_url u,
               (dedupFirst [] (webKeptLines text)).take MAX_TRAIN_LINES_PER_URL)])
          (normalize_url u)
        = subsCount st.submissions (normalize_url u) + 2
      rw [subsCount_append, subsCount_append]
      simp
  · -- a non-submitting call leaves the state untouched
    intro hnt
    rcases train_from_url_cases env st t₁ u with ⟨_, hst⟩ | ⟨lim, heq⟩
    · exact hst
    · rw [heq] at hnt
      exact absurd hnt (by simp [isTrained])

set_option maxRecDepth 8000 in
/-- Witness for C1: a fresh state, a first call at time 0 that submits;
a second call at time 21600 (the cooldown boundary) submits again for
two submissions total, while a second call at time 100 adds at most one
submission in total. -/
theorem claim_C1_witness :
    (isTrained (train_from_url sampleEnv
        (train_from_url sampleEnv ⟨[], []⟩ 0 "http://a.com/x").2
        21600 "http://a.com/x").1 = true
   ∧ subCount (train_from_url sampleEnv
        (train_from_url sampleEnv ⟨[], []⟩ 0 "http://a.com/x").2
        21600 "http://a.com/x").2 (normalize_url "http://a.com/x")
       = subCount ⟨[], []⟩ (normalize_url "http://a.com/x") + 2)
  ∧ subCount (train_from_url sampleEnv
      (train_from_url sampleEnv ⟨[], []⟩ 0 "http://a.com/x").2
      100 "http://a.com/x").2 "http://a.com/x"
      ≤ subCount ⟨[], []⟩ "http://a.com/x" + 1 :=
  ⟨(claim_C1_train_cooldown sampleEnv sampleEnv ⟨[], []⟩ "http://a.com/x" 0 21600).2.2.1
      sampleArticle (by decide) (by decide) rfl rfl rfl (by decide) (by decide),
   (claim_C1_train_cooldown sampleEnv sampleEnv ⟨[], []⟩ "http://a.com/x" 0 100).1
      (by decide) "http://a.com/x"⟩

end Chatpot


